import Mathlib

/-!
Verification of the response-normalization and streaming-adapter logic of the
cloudflare-llm-ms worker (src/index.ts), against its natural-language spec.

The embedding models JavaScript runtime values flowing through the adapter as
a JSON-like inductive type `JVal`.  JavaScript `undefined` (an absent object
property) is modelled by `Option JVal` at every property access.  Numbers are
modelled as `Int`: the numeric values the claims below exercise are integer
token counts and timestamps, exact in IEEE doubles over the relevant range.
The restriction is a genuine narrowing of the source's doubles — the adapter
forwards whatever finite numbers the backend reports, fractional ones
included — so no theorem below asserts integrality of any extracted number:
such a statement would hold by the typing of the model rather than by the
program.
Objects carry their properties as an insertion-ordered sequence with unique
keys (JavaScript object semantics; `JSON.parse` keeps the last value of a
duplicated key at the first occurrence's position, which `insertField`
reproduces below).  Arrays and objects are separate mutual inductives rather
than `List`-nested ones so that every recursion below is structural and the
kernel can evaluate the definitions on concrete inputs.
-/

mutual

inductive JVal where
  | null
  | bool (b : Bool)
  | num (n : Int)
  | str (s : String)
  | arr (items : JArr)
  | obj (fields : JObj)

inductive JArr where
  | nil
  | cons (head : JVal) (tail : JArr)

inductive JObj where
  | nil
  | cons (key : String) (val : JVal) (tail : JObj)

end

/-- Array of a list of values, for readable test inputs. -/
def JArr.ofList : List JVal → JArr
  | [] => .nil
  | v :: rest => .cons v (JArr.ofList rest)

/-- Object from an ordered list of key-value pairs, for readable test inputs. -/
def JObj.ofList : List (String × JVal) → JObj
  | [] => .nil
  | (k, v) :: rest => .cons k v (JObj.ofList rest)

/-- Lookup of a property in an object's field sequence (fields of any object
built by this development have unique keys, so first match is the binding). -/
def jlookup : JObj → String → Option JVal
  | .nil, _ => none
  | .cons k v rest, key => if k = key then some v else jlookup rest key

/-- JavaScript property access `value[key]`: `undefined` (`none`) on anything
that is not an object with that key; arrays and primitives have none of the
properties the adapter probes. -/
def jget : JVal → String → Option JVal
  | .obj fields, key => jlookup fields key
  | _, _ => none

/-- `typeof value === 'object' && value !== null` in JavaScript: true for
plain objects and for arrays. -/
def isObjLike : JVal → Bool
  | .obj _ => true
  | .arr _ => true
  | _ => false

/-- ASCII whitespace trimmed by `String.prototype.trim` (the adapter only ever
trims SSE text, which is ASCII; full JS trim also covers Unicode spaces). -/
def isJsSpace (c : Char) : Bool :=
  c = ' ' || c = '\t' || c = '\n' || c = '\r' || c = '\x0b' || c = '\x0c'

/-- Model of `String.prototype.trim` on the character list. -/
def jsTrimChars (cs : List Char) : List Char :=
  ((cs.dropWhile isJsSpace).reverse.dropWhile isJsSpace).reverse

/-- Model of `String.prototype.trim`. -/
def jsTrim (s : String) : String :=
  String.mk (jsTrimChars s.data)

mutual

/-- Source `extractTextCandidates` (src/index.ts:56-73).  A string yields
itself when non-empty; an array flat-maps the search over its items; an
object probes the keys response, text, content, delta, output_text in order
(the source's `results.length > 0 ? results : []` is just the concatenation);
everything else yields nothing. -/
def extractTextCandidates : JVal → List String
  | .str s => if 0 < s.length then [s] else []
  | .arr items => textCandidatesOfArr items
  | .obj fields =>
    textCandidatesAtKey fields "response"
    ++ textCandidatesAtKey fields "text"
    ++ textCandidatesAtKey fields "content"
    ++ textCandidatesAtKey fields "delta"
    ++ textCandidatesAtKey fields "output_text"
  | _ => []

/-- Concatenated candidates over an array's items, in order (the source's
`value.flatMap(item => extractTextCandidates(item))`). -/
def textCandidatesOfArr : JArr → List String
  | .nil => []
  | .cons v rest => extractTextCandidates v ++ textCandidatesOfArr rest

/-- Candidates of one probed key: the candidates of the bound value when the
key is present, nothing otherwise (`extractTextCandidates(item[key])` with
`item[key]` possibly `undefined`). -/
def textCandidatesAtKey : JObj → String → List String
  | .nil, _ => []
  | .cons k v rest, key =>
    if k = key then extractTextCandidates v else textCandidatesAtKey rest key

end

/-- A string-typed, non-empty property probe, as in the repeated pattern
`typeof obj.k === 'string' && obj.k.length > 0` of `extractDeltaText`. -/
def nonEmptyStrField (v : JVal) (key : String) : List String :=
  match jget v key with
  | some (.str s) => if 0 < s.length then [s] else []
  | _ => []

/-- Per-choice probe of `extractDeltaText` (src/index.ts:103-116):
`choice.delta.content` then `choice.text`; non-object choices contribute
nothing (`continue`). -/
def deltaTextOfChoice (choice : JVal) : List String :=
  (match jget choice "delta" with
   | some d => nonEmptyStrField d "content"
   | none => [])
  ++ nonEmptyStrField choice "text"

/-- Concatenated per-choice probes over a `choices` array, in order. -/
def deltaTextOfChoices : JArr → List String
  | .nil => []
  | .cons c rest => deltaTextOfChoice c ++ deltaTextOfChoices rest

/-- Source `extractDeltaText` (src/index.ts:75-120): on a non-object input
returns nothing; otherwise collects, in order, the string fields `response`,
`output_text`, `text`, then `delta.content`, then for each element of a
`choices` array its `delta.content` and `text`. -/
def extractDeltaText (value : JVal) : List String :=
  if isObjLike value then
    nonEmptyStrField value "response"
    ++ nonEmptyStrField value "output_text"
    ++ nonEmptyStrField value "text"
    ++ (match jget value "delta" with
        | some d => nonEmptyStrField d "content"
        | none => [])
    ++ (match jget value "choices" with
        | some (.arr cs) => deltaTextOfChoices cs
        | _ => [])
  else []

/-- Lowercase hex digit. -/
def hexDigit (n : Nat) : Char :=
  if n < 10 then Char.ofNat (48 + n) else Char.ofNat (87 + n)

/-- JSON string escaping as performed by `JSON.stringify`: quote, backslash,
and the named control characters get the standard short escapes, remaining
control characters a lowercase `\u00xx` escape. -/
def escapeJsonChar (c : Char) : String :=
  if c = '"' then "\\\""
  else if c = '\\' then "\\\\"
  else if c = '\n' then "\\n"
  else if c = '\r' then "\\r"
  else if c = '\t' then "\\t"
  else if c = '\x08' then "\\b"
  else if c = '\x0c' then "\\f"
  else if c.toNat < 32 then
    "\\u00" ++ String.mk [hexDigit (c.toNat / 16), hexDigit (c.toNat % 16)]
  else String.mk [c]

/-- JSON serialization of a string, with surrounding quotes. -/
def jsonQuote (s : String) : String :=
  "\"" ++ String.join (s.data.map escapeJsonChar) ++ "\""

mutual

/-- Model of `JSON.stringify` on `JVal`.  Members are emitted in insertion
order, as JavaScript does; integers print without a decimal point, as
`JSON.stringify` prints integral doubles. -/
def jsonStringify : JVal → String
  | .null => "null"
  | .bool true => "true"
  | .bool false => "false"
  | .num n => toString n
  | .str s => jsonQuote s
  | .arr items => "[" ++ jsonStringifyArr items ++ "]"
  | .obj fields => "\x7b" ++ jsonStringifyObj fields ++ "\x7d"

/-- Comma-joined serializations of an array's items. -/
def jsonStringifyArr : JArr → String
  | .nil => ""
  | .cons v .nil => jsonStringify v
  | .cons v rest => jsonStringify v ++ "," ++ jsonStringifyArr rest

/-- Comma-joined `"key":value` members of an object. -/
def jsonStringifyObj : JObj → String
  | .nil => ""
  | .cons k v .nil => jsonQuote k ++ ":" ++ jsonStringify v
  | .cons k v rest => jsonQuote k ++ ":" ++ jsonStringify v ++ "," ++ jsonStringifyObj rest

end

/-- Source `extractTextFromAiResult`'s mapping of one `output` array element
(src/index.ts:298-306): a string is kept, an object contributes its string
`text` field, anything else contributes the empty string. -/
def outputItemText (item : JVal) : String :=
  match item with
  | .str s => s
  | v =>
    match jget v "text" with
    | some (.str t) => t
    | _ => ""

/-- Concatenation (`join('')`) of the mapped `output` array elements. -/
def outputJoined : JArr → String
  | .nil => ""
  | .cons item rest => outputItemText item ++ outputJoined rest

/-- Source `extractTextFromAiResult` (src/index.ts:286-314): a string
`response` field wins; else a `result` container's string `response` then
`output_text`; else the concatenated-and-trimmed `output` array when that
text is non-empty; else the JSON serialization of the whole value. -/
def extractTextFromAiResult (result : JVal) : String :=
  match jget result "response" with
  | some (.str s) => s
  | _ =>
    match
      (match jget result "result" with
       | some container =>
         (match jget container "response" with
          | some (.str s) => some s
          | _ =>
            match jget container "output_text" with
            | some (.str s) => some s
            | _ => none)
       | none => none)
    with
    | some s => s
    | none =>
      match jget result "output" with
      | some (.arr items) =>
        let text := jsTrim (outputJoined items)
        if text = "" then jsonStringify result else text
      | _ => jsonStringify result

/-- Decimal digit value. -/
def digitVal (c : Char) : Option Nat :=
  if '0' ≤ c ∧ c ≤ '9' then some (c.toNat - 48) else none

/-- Accumulating decimal reader: succeeds only when every character is a
digit. -/
def parseDigitsGo : List Char → Nat → Option Nat
  | [], acc => some acc
  | c :: rest, acc =>
    match digitVal c with
    | some d => parseDigitsGo rest (acc * 10 + d)
    | none => none

/-- Whole-list decimal reader: at least one digit, digits only. -/
def parseDigits : List Char → Option Nat
  | [] => none
  | cs => parseDigitsGo cs 0

/-- Model of JavaScript `Number(string)` restricted to the integral literals
the adapter meets: the input is trimmed, an empty remainder is `0` (a JS
quirk), an optional sign is followed by decimal digits; anything else is
`NaN`, i.e. not finite (`none`).  Fractional, exponent, and hex forms are
outside the model. -/
def jsStringToNumber (s : String) : Option Int :=
  match jsTrimChars s.data with
  | [] => some 0
  | '-' :: rest => (parseDigits rest).map (fun n => -(n : Int))
  | '+' :: rest => (parseDigits rest).map (fun n => (n : Int))
  | cs => (parseDigits cs).map (fun n => (n : Int))

/-- Source `toNumber` (src/index.ts:217-224) on a possibly-absent property:
a (finite) number is kept, a string is coerced through `Number`, everything
else — including `undefined` — is `null`. -/
def toNumber : Option JVal → Option Int
  | some (.num n) => some n
  | some (.str s) => jsStringToNumber s
  | _ => none

/-- OpenAI usage triple. -/
structure Usage where
  prompt_tokens : Int
  completion_tokens : Int
  total_tokens : Int
deriving DecidableEq

/-- Alias chain for prompt tokens (src/index.ts:227-231). -/
def promptTokensOf (source : JVal) : Option Int :=
  toNumber (jget source "prompt_tokens") <|> toNumber (jget source "input_tokens")
  <|> toNumber (jget source "promptTokens") <|> toNumber (jget source "inputTokens")

/-- Alias chain for completion tokens (src/index.ts:233-237). -/
def completionTokensOf (source : JVal) : Option Int :=
  toNumber (jget source "completion_tokens") <|> toNumber (jget source "output_tokens")
  <|> toNumber (jget source "completionTokens") <|> toNumber (jget source "outputTokens")

/-- Directly reported total tokens (src/index.ts:240-241, the first two
alternatives of the `totalTokens` chain). -/
def totalDirectOf (source : JVal) : Option Int :=
  toNumber (jget source "total_tokens") <|> toNumber (jget source "totalTokens")

/-- Source `getUsageFromObject` (src/index.ts:226-254): resolves the three
alias chains over one candidate object; the total falls back to the sum of
prompt and completion when both are present; when no chain yields anything
the location yields nothing (`null`); otherwise absent quantities default
to 0. -/
def getUsageFromObject (source : JVal) : Option Usage :=
  let promptTokens := promptTokensOf source
  let completionTokens := completionTokensOf source
  let totalTokens := totalDirectOf source <|>
    (match promptTokens, completionTokens with
     | some p, some c => some (p + c)
     | _, _ => none)
  if promptTokens = none ∧ completionTokens = none ∧ totalTokens = none then none
  else
    some ⟨promptTokens.getD 0, completionTokens.getD 0,
      totalTokens.getD
        (match promptTokens, completionTokens with
         | some p, some c => p + c
         | _, _ => 0)⟩

/-- Source `extractUsageFromAiResult` (src/index.ts:256-284): the result
object directly, then its `usage` sub-object, then the nested `result`
container directly, then that container's `usage` sub-object; the first
location yielding a usage wins; otherwise all-zero usage. -/
def extractUsageFromAiResult (result : JVal) : Usage :=
  match getUsageFromObject result with
  | some direct => direct
  | none =>
    match
      (match jget result "usage" with
       | some directUsage =>
         if isObjLike directUsage then getUsageFromObject directUsage else none
       | none => none)
    with
    | some usage => usage
    | none =>
      match jget result "result" with
      | some nested =>
        if isObjLike nested then
          match getUsageFromObject nested with
          | some nestedDirect => nestedDirect
          | none =>
            match
              (match jget nested "usage" with
               | some nestedUsage =>
                 if isObjLike nestedUsage then getUsageFromObject nestedUsage else none
               | none => none)
            with
            | some usage => usage
            | none => ⟨0, 0, 0⟩
        else ⟨0, 0, 0⟩
      | none => ⟨0, 0, 0⟩

/-- The four locations `extractUsageFromAiResult` probes, in probe order:
the result itself, its `usage` property, the `result` container, and that
container's `usage` property. -/
def usageSources (r : JVal) : List JVal :=
  [r]
  ++ (match jget r "usage" with | some u => [u] | none => [])
  ++ (match jget r "result" with
      | some n => [n] ++ (match jget n "usage" with | some nu => [nu] | none => [])
      | none => [])

/-- Source `createChunkPayload` (src/index.ts:36-50); `created` stands for
the sampled `Math.floor(Date.now() / 1000)`.  `content = none` gives the
empty delta object, `finishReason = none` gives JSON `null`. -/
def createChunkPayload (id : String) (model : String) (content : Option String)
    (finishReason : Option String) (created : Nat) : JVal :=
  JVal.obj (JObj.ofList [
    ("id", JVal.str id),
    ("object", JVal.str "chat.completion.chunk"),
    ("created", JVal.num (Int.ofNat created)),
    ("model", JVal.str model),
    ("choices", JVal.arr (JArr.ofList [
      JVal.obj (JObj.ofList [
        ("index", JVal.num 0),
        ("delta",
          match content with
          | none => JVal.obj .nil
          | some s => JVal.obj (JObj.ofList [("content", JVal.str s)])),
        ("finish_reason",
          match finishReason with
          | none => JVal.null
          | some reason => JVal.str reason)
      ])
    ]))
  ])

/-- Source `sseData` (src/index.ts:52-54): one SSE frame around a JSON
payload. -/
def sseData (payload : JVal) : String :=
  "data: " ++ jsonStringify payload ++ "\n\n"

/-- Concatenation of the lists produced by `f` over a list, in order
(JavaScript `Array.prototype.flatMap`). -/
def lflatMap (f : α → List β) : List α → List β
  | [] => []
  | a :: as => f a ++ lflatMap f as

/-- JSON insignificant whitespace. -/
def jsonWs (c : Char) : Bool :=
  c = ' ' || c = '\t' || c = '\n' || c = '\r'

/-- Drop leading JSON whitespace. -/
def skipWs : List Char → List Char
  | [] => []
  | c :: rest => if jsonWs c then skipWs rest else c :: rest

/-- Hexadecimal digit value, both cases. -/
def hexVal (c : Char) : Option Nat :=
  if '0' ≤ c ∧ c ≤ '9' then some (c.toNat - 48)
  else if 'a' ≤ c ∧ c ≤ 'f' then some (c.toNat - 87)
  else if 'A' ≤ c ∧ c ≤ 'F' then some (c.toNat - 55)
  else none

/-- Body of a JSON string literal after the opening quote: returns the
decoded characters and the input after the closing quote.  Standard escapes
and `\uXXXX` are decoded; raw control characters are rejected, as
`JSON.parse` rejects them. -/
def parseStringBody : List Char → Option (List Char × List Char)
  | [] => none
  | '"' :: rest => some ([], rest)
  | '\\' :: 'n' :: rest => (parseStringBody rest).map (fun p => ('\n' :: p.1, p.2))
  | '\\' :: 'r' :: rest => (parseStringBody rest).map (fun p => ('\r' :: p.1, p.2))
  | '\\' :: 't' :: rest => (parseStringBody rest).map (fun p => ('\t' :: p.1, p.2))
  | '\\' :: 'b' :: rest => (parseStringBody rest).map (fun p => ('\x08' :: p.1, p.2))
  | '\\' :: 'f' :: rest => (parseStringBody rest).map (fun p => ('\x0c' :: p.1, p.2))
  | '\\' :: '/' :: rest => (parseStringBody rest).map (fun p => ('/' :: p.1, p.2))
  | '\\' :: '"' :: rest => (parseStringBody rest).map (fun p => ('"' :: p.1, p.2))
  | '\\' :: '\\' :: rest => (parseStringBody rest).map (fun p => ('\\' :: p.1, p.2))
  | '\\' :: 'u' :: h1 :: h2 :: h3 :: h4 :: rest =>
    (match hexVal h1, hexVal h2, hexVal h3, hexVal h4 with
     | some a, some b, some c, some d =>
       (parseStringBody rest).map
         (fun p => (Char.ofNat (((a * 16 + b) * 16 + c) * 16 + d) :: p.1, p.2))
     | _, _, _, _ => none)
  | '\\' :: _ => none
  | c :: rest =>
    if c.toNat < 32 then none
    else (parseStringBody rest).map (fun p => (c :: p.1, p.2))

/-- Insertion preserving JavaScript object semantics for `JSON.parse`: a
duplicated key keeps its first position but takes the later value. -/
def insertField : JObj → String → JVal → JObj
  | .nil, key, v => .cons key v .nil
  | .cons k v0 rest, key, v =>
    if k = key then .cons k v rest else .cons k v0 (insertField rest key v)

/-- Integer JSON number token: optional minus, then digits with no leading
zero; a following `.`, `e` or `E` (fraction or exponent, outside this
model) rejects.  Returns the value and the unconsumed input. -/
def parseNumberToken (cs : List Char) : Option (Int × List Char) :=
  let core : List Char → Option (Int × List Char) := fun ds =>
    match ds.head? with
    | none => none
    | some c =>
      match digitVal c with
      | none => none
      | some _ =>
        let digits := ds.takeWhile (fun d => (digitVal d).isSome)
        let rest := ds.dropWhile (fun d => (digitVal d).isSome)
        if digits.length > 1 ∧ c = '0' then none
        else match rest.head? with
          | some '.' => none
          | some 'e' => none
          | some 'E' => none
          | _ => (parseDigits digits).map (fun n => ((n : Int), rest))
  match cs with
  | '-' :: rest => (core rest).map (fun p => (-p.1, p.2))
  | _ => core cs

/-- Append one value at the end of an array. -/
def jarrSnoc : JArr → JVal → JArr
  | .nil, v => .cons v .nil
  | .cons h t, v => .cons h (jarrSnoc t v)

mutual

/-- Model of `JSON.parse` value parsing (fuelled recursion; the fuel bounds
the recursion and is never exhausted at the length-based budget of
`jsonParse`; exhaustion reads as a parse failure).  The input starts at a
non-whitespace character; returns the value and the unconsumed input. -/
def parseJsonValue : Nat → List Char → Option (JVal × List Char)
  | 0, _ => none
  | fuel + 1, cs =>
    match cs with
    | [] => none
    | c :: rest =>
      if c = '"' then
        (parseStringBody rest).map (fun p => (JVal.str (String.mk p.1), p.2))
      else if c = '\x7b' then
        match skipWs rest with
        | '\x7d' :: r2 => some (JVal.obj .nil, r2)
        | r2 => parseJsonMembers fuel r2 .nil
      else if c = '[' then
        match skipWs rest with
        | ']' :: r2 => some (JVal.arr .nil, r2)
        | r2 => parseJsonItems fuel r2 .nil
      else if c = 't' then
        match rest with
        | 'r' :: 'u' :: 'e' :: r2 => some (JVal.bool true, r2)
        | _ => none
      else if c = 'f' then
        match rest with
        | 'a' :: 'l' :: 's' :: 'e' :: r2 => some (JVal.bool false, r2)
        | _ => none
      else if c = 'n' then
        match rest with
        | 'u' :: 'l' :: 'l' :: r2 => some (JVal.null, r2)
        | _ => none
      else
        (parseNumberToken cs).map (fun p => (JVal.num p.1, p.2))

/-- Members of a JSON object after `\x7b` (at least one member; the empty
object is handled by `parseJsonValue`). -/
def parseJsonMembers : Nat → List Char → JObj → Option (JVal × List Char)
  | 0, _, _ => none
  | fuel + 1, cs, acc =>
    match cs with
    | '"' :: rest =>
      (match parseStringBody rest with
       | some (keyChars, r1) =>
         (match skipWs r1 with
          | ':' :: r2 =>
            (match parseJsonValue fuel (skipWs r2) with
             | some (v, r3) =>
               let acc1 := insertField acc (String.mk keyChars) v
               (match skipWs r3 with
                | ',' :: r4 => parseJsonMembers fuel (skipWs r4) acc1
                | '\x7d' :: r4 => some (JVal.obj acc1, r4)
                | _ => none)
             | none => none)
          | _ => none)
       | none => none)
    | _ => none

/-- Items of a JSON array after `[` (at least one item; the empty array is
handled by `parseJsonValue`). -/
def parseJsonItems : Nat → List Char → JArr → Option (JVal × List Char)
  | 0, _, _ => none
  | fuel + 1, cs, acc =>
    match parseJsonValue fuel cs with
    | some (v, r1) =>
      (match skipWs r1 with
       | ',' :: r2 => parseJsonItems fuel (skipWs r2) (jarrSnoc acc v)
       | ']' :: r2 => some (JVal.arr (jarrSnoc acc v), r2)
       | _ => none)
    | none => none

end

/-- Model of `JSON.parse`: parse one value surrounded by optional whitespace;
anything left over is an error (`none`). -/
def jsonParse (s : String) : Option JVal :=
  match parseJsonValue (2 * s.length + 4) (skipWs s.data) with
  | some (v, rest) => if (skipWs rest).isEmpty then some v else none
  | none => none

/-- One `\r?\n` of the source's splitting regexes: greedy `\r?` with the
backtracking of the regex engine (`\r` alone never matches). -/
def matchNl : List Char → Option (List Char)
  | '\r' :: '\n' :: rest => some rest
  | '\n' :: rest => some rest
  | _ => none

/-- One blank-line boundary `\r?\n\r?\n` (src/index.ts:152). -/
def matchSep (cs : List Char) : Option (List Char) :=
  match matchNl cs with
  | some r1 => matchNl r1
  | none => none

/-- Split on blank-line boundaries, as `buffer.split(/\r?\n\r?\n/)`: scan
left to right, cut at each match, keep what trails the last boundary (the
result is never empty).  Fuelled: each step consumes one character or more,
so the length-sized budget of `splitEvents` never runs out. -/
def splitSepGo : Nat → List Char → List Char → List (List Char)
  | _, [], acc => [acc.reverse]
  | 0, cs, acc => [acc.reverse ++ cs]
  | fuel + 1, c :: cs, acc =>
    match matchSep (c :: cs) with
    | some rest => acc.reverse :: splitSepGo fuel rest []
    | none => splitSepGo fuel cs (c :: acc)

/-- Event splitting of the pending buffer (src/index.ts:152). -/
def splitEvents (s : String) : List String :=
  (splitSepGo s.data.length s.data []).map String.mk

/-- Split on line boundaries, as `part.split(/\r?\n/)` (src/index.ts:157). -/
def splitNlGo : Nat → List Char → List Char → List (List Char)
  | _, [], acc => [acc.reverse]
  | 0, cs, acc => [acc.reverse ++ cs]
  | fuel + 1, c :: cs, acc =>
    match matchNl (c :: cs) with
    | some rest => acc.reverse :: splitNlGo fuel rest []
    | none => splitNlGo fuel cs (c :: acc)

/-- Line splitting of one complete event. -/
def splitLinesChars (cs : List Char) : List (List Char) :=
  splitNlGo cs.length cs []

/-- Does the character list begin with the given pattern
(`line.startsWith('data:')`)? -/
def beginsWith : List Char → List Char → Bool
  | _, [] => true
  | [], _ :: _ => false
  | c :: cs, p :: ps => c = p && beginsWith cs ps

/-- One serialized content chunk carrying a text delta, as `emitContent`
enqueues it (src/index.ts:136-139). -/
def streamChunkFrame (id : String) (model : String) (created : Nat) (text : String) : String :=
  sseData (createChunkPayload id model (some text) none created)

/-- Frames `emitContent` produces over a list of texts, in order: empty
texts are skipped (`if (!text) return`), each other text becomes one
serialized content chunk. -/
def contentFrames (id : String) (model : String) (created : Nat) (texts : List String) : List String :=
  (texts.filter (fun t => t ≠ "")).map (streamChunkFrame id model created)

/-- Trimmed, `data:`-prefixed lines of one event (src/index.ts:156-159). -/
def dataLinesOf (part : String) : List (List Char) :=
  ((splitLinesChars part.data).map jsTrimChars).filter (fun l => beginsWith l "data:".data)

/-- Payload of one data line: the text after the 5-character `data:` prefix,
trimmed (src/index.ts:168). -/
def rawOfDataLine (line : List Char) : String :=
  String.mk (jsTrimChars (line.drop 5))

/-- Frames emitted for one data-line payload (src/index.ts:169-179): empty
payloads and the backend's own `[DONE]` are skipped; a payload parsing as
JSON yields one content frame per extracted delta text; an unparseable
payload is emitted verbatim. -/
def framesOfRaw (id : String) (model : String) (created : Nat) (raw : String) : List String :=
  if raw = "" ∨ raw = "[DONE]" then []
  else
    match jsonParse raw with
    | some parsed => contentFrames id model created (extractDeltaText parsed)
    | none => contentFrames id model created [raw]

/-- Frames emitted for one complete event (src/index.ts:155-181): an event
with no `data:` lines goes through the generic candidate search as one raw
string; otherwise each data line contributes its frames in order. -/
def framesOfPart (id : String) (model : String) (created : Nat) (part : String) : List String :=
  match dataLinesOf part with
  | [] => contentFrames id model created (extractTextCandidates (JVal.str part))
  | lines => lflatMap (fun line => framesOfRaw id model created (rawOfDataLine line)) lines

/-- One read of the backend stream: the reader either yields a JavaScript
string or a byte chunk (shown decoded; the adapter decodes incrementally). -/
inductive ReadItem where
  | strVal (s : String)
  | bytes (b : String)

/-- A backend stream as the normalizer consumes it: the successful reads in
order, then either a clean end of stream or a read that throws. -/
structure AiStream where
  reads : List ReadItem
  readFails : Bool

/-- Frames emitted and new pending buffer after one successful read
(src/index.ts:143-181): a string read is emitted directly as one content
delta; a byte read is appended to the buffer, which is split at blank-line
boundaries, every complete event is processed, and the remainder after the
last boundary becomes the new buffer. -/
def stepRead (id : String) (model : String) (created : Nat) (buffer : String) :
    ReadItem → List String × String
  | .strVal s => (contentFrames id model created [s], buffer)
  | .bytes b =>
    let parts := splitEvents (buffer ++ b)
    (lflatMap (framesOfPart id model created) parts.dropLast, parts.getLastD "")

/-- Frames and final pending buffer over a whole read sequence, from a given
buffer. -/
def runReads (id : String) (model : String) (created : Nat) :
    List ReadItem → String → List String × String
  | [], buffer => ([], buffer)
  | r :: rs, buffer =>
    let step := stepRead id model created buffer r
    let rest := runReads id model created rs step.2
    (step.1 ++ rest.1, rest.2)

/-- Output of the normalizer: the serialized SSE frames enqueued in order,
and whether the output stream was aborted with `controller.error` (true)
or closed normally with `controller.close` (false). -/
structure SseOut where
  frames : List String
  errored : Bool

/-- Source `toOpenAiSseFromAiStream` (src/index.ts:122-201); `created`
stands for the timestamps sampled while emitting.  The reads are processed
in order; when a read throws, the output is aborted with an error and
nothing further is emitted; on clean exhaustion a non-blank pending buffer
is flushed through the generic candidate search, then exactly one stop
chunk and the terminal sentinel are emitted and the output closes. -/
def toOpenAiSseFromAiStream (s : AiStream) (id : String) (model : String) (created : Nat) : SseOut :=
  let run := runReads id model created s.reads ""
  if s.readFails then ⟨run.1, true⟩
  else
    let flush :=
      if jsTrim run.2 ≠ "" then
        contentFrames id model created (extractTextCandidates (JVal.str run.2))
      else []
    ⟨run.1 ++ flush
      ++ [sseData (createChunkPayload id model none (some "stop") created),
          "data: [DONE]\n\n"],
     false⟩

/-- Delta texts of one data-line payload: the emission skeleton of
`framesOfRaw`, independent of id, model and timestamp. -/
def deltasOfRaw (raw : String) : List String :=
  if raw = "" ∨ raw = "[DONE]" then []
  else
    match jsonParse raw with
    | some parsed => extractDeltaText parsed
    | none => [raw]

/-- Delta texts of one complete event: the emission skeleton of
`framesOfPart`. -/
def deltasOfPart (part : String) : List String :=
  match dataLinesOf part with
  | [] => extractTextCandidates (JVal.str part)
  | lines => lflatMap (fun line => deltasOfRaw (rawOfDataLine line)) lines

/-- Delta texts and new pending buffer of one read: the emission skeleton of
`stepRead`. -/
def stepDeltas (buffer : String) : ReadItem → List String × String
  | .strVal s => ([s], buffer)
  | .bytes b =>
    let parts := splitEvents (buffer ++ b)
    (lflatMap deltasOfPart parts.dropLast, parts.getLastD "")

/-- Delta texts and final buffer over a read sequence: the emission skeleton
of `runReads`. -/
def runDeltas : List ReadItem → String → List String × String
  | [], buffer => ([], buffer)
  | r :: rs, buffer =>
    let step := stepDeltas buffer r
    let rest := runDeltas rs step.2
    (step.1 ++ rest.1, rest.2)

/-- All delta texts the normalizer extracts from a backend stream, including
the final-buffer flush on clean exhaustion: a function of the input bytes
alone, independent of id, model and timestamps. -/
def streamDeltas (s : AiStream) : List String :=
  let run := runDeltas s.reads ""
  run.1 ++
    (if s.readFails then []
     else if jsTrim run.2 ≠ "" then extractTextCandidates (JVal.str run.2)
     else [])

/-- The three frames the responder synthesizes when `stream=true` but the
backend returned a plain value (src/index.ts:408-418).  The third element
reproduces the source literal `'data: [DONE]\\n\\n'` of line 415 exactly:
its last four characters are backslash, `n`, backslash, `n` — not newlines. -/
def fallbackStreamFrames (requestId : String) (model : String) (streamedResult : JVal)
    (created : Nat) : List String :=
  [ sseData (createChunkPayload requestId model (some (extractTextFromAiResult streamedResult)) none created),
    sseData (createChunkPayload requestId model none (some "stop") created),
    "data: [DONE]\\n\\n" ]

/-- Conversion of an array value back to a Lean list. -/
def jarrToList : JArr → List JVal
  | .nil => []
  | .cons v rest => v :: jarrToList rest

/-- JavaScript truthiness of a JSON-representable value (`NaN`, absent from
the model, is also falsy in JS). -/
def jtruthy : JVal → Bool
  | .null => false
  | .bool b => b
  | .num n => n != 0
  | .str s => s ≠ ""
  | .arr _ => true
  | .obj _ => true

/-- Parsed request body of `POST /v1/chat/completions`: optional model,
optional `messages` of unknown shape, optional `stream` flag (absent means
false). -/
structure ChatBody where
  model : Option String
  messages : Option JVal
  stream : Bool

/-- The fixed default model identifier (src/index.ts:17). -/
def DEFAULT_MODEL : String := "@cf/meta/llama-3.1-8b-instruct"

/-- `Array.isArray(body.messages) ? body.messages : []` (src/index.ts:376). -/
def messagesOf (body : ChatBody) : List JVal :=
  match body.messages with
  | some (.arr items) => jarrToList items
  | _ => []

/-- The per-message validation predicate of src/index.ts:384-386:
`typeof message?.content !== 'string' || !message.content.trim() ||
!message.role`. -/
def isInvalidMessage (message : JVal) : Bool :=
  (match jget message "content" with
   | some (.str s) => (jsTrimChars s.data).isEmpty
   | _ => true)
  || (match jget message "role" with
      | some r => !jtruthy r
      | none => true)

/-- Outcome of the chat-completions handler up to the backend call: either a
structured 400 invalid-request error returned before `c.env.AI.run` is ever
invoked, or the backend call with the arguments the handler passes. -/
inductive DispatchResult where
  | badRequest (message : String)
  | callBackend (model : String) (messages : List JVal) (streamFlag : Bool)

/-- The validation-then-dispatch prefix of `app.post('/v1/chat/completions')`
(src/index.ts:375-395), after successful JSON body parsing: empty messages
and invalid messages yield the 400-class errors, in that order; otherwise
the backend is invoked with the given model, messages and stream flag. -/
def chatCompletionsDispatch (body : ChatBody) : DispatchResult :=
  let model := body.model.getD DEFAULT_MODEL
  let messages := messagesOf body
  if messages.length = 0 then
    .badRequest "`messages` must be a non-empty array."
  else if messages.any isInvalidMessage then
    .badRequest "Each message must include string `role` and non-empty string `content`."
  else
    .callBackend model messages body.stream

theorem contentFrames_append (id model : String) (c : Nat) (a b : List String) :
    contentFrames id model c (a ++ b) = contentFrames id model c a ++ contentFrames id model c b := by
  simp [contentFrames, List.filter_append]

theorem contentFrames_lflatMap (id model : String) (c : Nat) (f : α → List String)
    (xs : List α) :
    contentFrames id model c (lflatMap f xs)
      = lflatMap (fun x => contentFrames id model c (f x)) xs := by
  induction xs with
  | nil => rfl
  | cons a as ih => simp only [lflatMap, contentFrames_append, ih]

theorem lflatMap_congr (f g : α → List β) (xs : List α) (h : ∀ a, f a = g a) :
    lflatMap f xs = lflatMap g xs := by
  induction xs with
  | nil => rfl
  | cons a as ih => simp only [lflatMap, h, ih]

theorem framesOfRaw_eq_deltas (id model : String) (c : Nat) (raw : String) :
    framesOfRaw id model c raw = contentFrames id model c (deltasOfRaw raw) := by
  unfold framesOfRaw deltasOfRaw
  by_cases h : raw = "" ∨ raw = "[DONE]"
  · simp [h]; rfl
  · simp only [h, if_false]
    cases jsonParse raw <;> rfl

theorem framesOfPart_eq_deltas (id model : String) (c : Nat) (part : String) :
    framesOfPart id model c part = contentFrames id model c (deltasOfPart part) := by
  unfold framesOfPart deltasOfPart
  cases dataLinesOf part with
  | nil => rfl
  | cons l ls =>
    simp only [contentFrames_lflatMap, framesOfRaw_eq_deltas]

theorem stepRead_eq_deltas (id model : String) (c : Nat) (buffer : String) (r : ReadItem) :
    stepRead id model c buffer r
      = (contentFrames id model c (stepDeltas buffer r).1, (stepDeltas buffer r).2) := by
  cases r with
  | strVal s => rfl
  | bytes b =>
    simp only [stepRead, stepDeltas, contentFrames_lflatMap]
    rw [lflatMap_congr (framesOfPart id model c)
      (fun x => contentFrames id model c (deltasOfPart x))
      (splitEvents (buffer ++ b)).dropLast (framesOfPart_eq_deltas id model c)]

theorem runReads_eq_deltas (id model : String) (c : Nat) (rs : List ReadItem) :
    ∀ buffer, runReads id model c rs buffer
      = (contentFrames id model c (runDeltas rs buffer).1, (runDeltas rs buffer).2) := by
  induction rs with
  | nil => intro buffer; rfl
  | cons r rs ih =>
    intro buffer
    simp only [runReads, runDeltas, stepRead_eq_deltas, ih, contentFrames_append]

/-- C1: a backend stream yielding exactly three SSE-style byte events, each
`data: {"response":"tok"}` plus a blank line, is normalized to exactly three
content frames with delta content `tok`, then one stop chunk, then the
terminal sentinel `data: [DONE]` plus a blank line, in that order with
nothing lost or duplicated, and the output closes (no error). -/
theorem stream_three_events_c1 (id model : String) (created : Nat) :
    toOpenAiSseFromAiStream
      ⟨[ReadItem.bytes "data: \x7b\"response\":\"tok\"\x7d\n\n",
        ReadItem.bytes "data: \x7b\"response\":\"tok\"\x7d\n\n",
        ReadItem.bytes "data: \x7b\"response\":\"tok\"\x7d\n\n"], false⟩ id model created =
    ⟨[streamChunkFrame id model created "tok",
      streamChunkFrame id model created "tok",
      streamChunkFrame id model created "tok",
      sseData (createChunkPayload id model none (some "stop") created),
      "data: [DONE]\n\n"], false⟩ := by
  rfl

/-- C5: a logical SSE event split across two byte reads (`data: {"respon`
then `se":"x"}` plus a blank line) is buffered, reassembled at the blank-line
boundary, and yields exactly one content frame with content `x` (followed by
the stop chunk and sentinel of stream exhaustion). -/
theorem split_frame_reassembly_c5 (id model : String) (created : Nat) :
    toOpenAiSseFromAiStream
      ⟨[ReadItem.bytes "data: \x7b\"respon", ReadItem.bytes "se\":\"x\"\x7d\n\n"], false⟩
      id model created =
    ⟨[streamChunkFrame id model created "x",
      sseData (createChunkPayload id model none (some "stop") created),
      "data: [DONE]\n\n"], false⟩ := by
  rfl

/-- C9: the normalizer's output is a deterministic function of the input
bytes: its frames are exactly one content frame per element of
`streamDeltas` — a function of the read sequence alone, independent of id,
model and timestamp — followed (on clean termination only) by the stop chunk
and the sentinel, and its error flag is exactly the stream's read-failure
flag.  Two passes over the same byte sequence with the same id and model
therefore produce byte-identical output up to the `created` timestamps,
which enter only through each frame's `createChunkPayload`. -/
theorem normalize_deterministic_c9 (s : AiStream) (id model : String) (created : Nat) :
    toOpenAiSseFromAiStream s id model created =
      ⟨contentFrames id model created (streamDeltas s)
        ++ (if s.readFails then []
            else [sseData (createChunkPayload id model none (some "stop") created),
                  "data: [DONE]\n\n"]),
       s.readFails⟩ := by
  unfold toOpenAiSseFromAiStream streamDeltas
  rw [runReads_eq_deltas]
  by_cases hf : s.readFails
  · simp [hf, contentFrames_append]
  · by_cases hb : jsTrim (runDeltas s.reads "").2 ≠ ""
    · simp [hf, hb, contentFrames_append]
    · simp [hf, hb, contentFrames_append]

/-- C8: a data line whose payload fails to parse as JSON is emitted verbatim
as one content frame carrying the raw trimmed text (first conjunct); and a
stream whose read fails is aborted with the error flag set, its frames being
exactly the content frames already derived from the successful reads — in
particular no stop chunk and no sentinel follow the error (second
conjunct). -/
theorem stream_error_handling_c8 :
    (∀ (id model : String) (created : Nat) (raw : String),
       jsonParse raw = none → raw ≠ "" → raw ≠ "[DONE]" →
       framesOfRaw id model created raw = [streamChunkFrame id model created raw])
  ∧ (∀ (s : AiStream) (id model : String) (created : Nat),
       s.readFails = true →
       toOpenAiSseFromAiStream s id model created =
         ⟨contentFrames id model created (runDeltas s.reads "").1, true⟩) := by
  constructor
  · intro id model created raw hparse hne hdone
    unfold framesOfRaw
    have hor : ¬ (raw = "" ∨ raw = "[DONE]") := by tauto
    simp only [hor, if_false, hparse]
    simp [contentFrames, hne]
  · intro s id model created hf
    unfold toOpenAiSseFromAiStream
    rw [runReads_eq_deltas]
    simp [hf]

/-- Witness for C8 at concrete inputs: the unparseable payload `oops` is
emitted verbatim, and a one-read stream that then fails ends errored with
only its content frames. -/
theorem stream_error_handling_c8_witness :
    (framesOfRaw "i" "m" 0 "oops" = [streamChunkFrame "i" "m" 0 "oops"])
  ∧ (toOpenAiSseFromAiStream ⟨[ReadItem.bytes "data: \x7b\"response\":\"tok\"\x7d\n\n"], true⟩ "i" "m" 0 =
      ⟨contentFrames "i" "m" 0
        (runDeltas [ReadItem.bytes "data: \x7b\"response\":\"tok\"\x7d\n\n"] "").1, true⟩) :=
  ⟨stream_error_handling_c8.1 "i" "m" 0 "oops" rfl (by decide) (by decide),
   stream_error_handling_c8.2 ⟨[ReadItem.bytes "data: \x7b\"response\":\"tok\"\x7d\n\n"], true⟩ "i" "m" 0 rfl⟩

/-- C3: evaluation of the stream-mode plain-result fallback at a failing
input (`stream=true`, backend returns the plain object `{}`): the first two
frames are the well-formed content chunk and stop chunk, but the third frame
is the 17-character literal `data: [DONE]\n\n` whose `\n` are the two
characters backslash and `n` — the frame contains no newline at all, so the
emitted sentinel is not `data: [DONE]` followed by a blank line
(src/index.ts:415 doubles the escape, unlike the normalizer's correct
sentinel at src/index.ts:192). -/
theorem fallback_sentinel_c3 :
    fallbackStreamFrames "chatcmpl-1" "m" (JVal.obj .nil) 0 =
      [ sseData (createChunkPayload "chatcmpl-1" "m" (some "\x7b\x7d") none 0),
        sseData (createChunkPayload "chatcmpl-1" "m" none (some "stop") 0),
        "data: [DONE]\\n\\n" ]
  ∧ ("data: [DONE]\\n\\n" : String).data.contains '\n' = false
  ∧ "data: [DONE]\\n\\n" ≠ "data: [DONE]\n\n" := by
  refine ⟨rfl, by decide, by decide⟩

/-- The repeated `usage` sub-object probe of `extractUsageFromAiResult`
(src/index.ts:260-264 and 272-276): a `usage` property that is a non-null
object is searched with `getUsageFromObject`, anything else yields
nothing. -/
def usageProbe (o : JVal) : Option Usage :=
  match jget o "usage" with
  | some directUsage => if isObjLike directUsage then getUsageFromObject directUsage else none
  | none => none

theorem extractUsage_unfold (r : JVal) :
    extractUsageFromAiResult r =
      (match getUsageFromObject r with
       | some direct => direct
       | none =>
         match usageProbe r with
         | some usage => usage
         | none =>
           match jget r "result" with
           | some nested =>
             if isObjLike nested then
               match getUsageFromObject nested with
               | some nestedDirect => nestedDirect
               | none =>
                 match usageProbe nested with
                 | some usage => usage
                 | none => ⟨0, 0, 0⟩
             else ⟨0, 0, 0⟩
           | none => ⟨0, 0, 0⟩) := rfl

theorem usageProbe_some (o : JVal) (u : Usage) (h : usageProbe o = some u) :
    ∃ uo, jget o "usage" = some uo ∧ getUsageFromObject uo = some u := by
  unfold usageProbe at h
  cases h2 : jget o "usage" with
  | none => rw [h2] at h; exact absurd h (by simp)
  | some uo =>
    rw [h2] at h
    by_cases h3 : isObjLike uo
    · simp only [h3, if_true] at h; exact ⟨uo, rfl, h⟩
    · simp [h3] at h

theorem extractUsage_cases (r : JVal) :
    extractUsageFromAiResult r = ⟨0, 0, 0⟩ ∨
    ∃ src, src ∈ usageSources r ∧ getUsageFromObject src = some (extractUsageFromAiResult r) := by
  rw [extractUsage_unfold]
  unfold usageSources
  cases h1 : getUsageFromObject r with
  | some direct => right; exact ⟨r, by simp, by simp [h1]⟩
  | none =>
    cases h2 : usageProbe r with
    | some u =>
      obtain ⟨uo, huo, hu⟩ := usageProbe_some r u h2
      right; exact ⟨uo, by simp [huo], by simp [hu]⟩
    | none =>
      cases h3 : jget r "result" with
      | none => left; rfl
      | some nested =>
        by_cases h4 : isObjLike nested
        · cases h5 : getUsageFromObject nested with
          | some nd => right; exact ⟨nested, by simp [h3], by simp [h4, h5]⟩
          | none =>
            cases h6 : usageProbe nested with
            | some u =>
              obtain ⟨uo, huo, hu⟩ := usageProbe_some nested u h6
              right; exact ⟨uo, by simp [h3, huo], by simp [h4, h5, h6, hu]⟩
            | none => left; simp [h4, h5, h6]
        · left; simp [h4]

/-- C2: `extractTextFromAiResult` is total (it is a Lean function into
`String`, so it terminates and returns a string on every input); it returns
`hi` on `{response:"hi"}`, `x` on `{result:{output_text:"x"}}`, `ab` on
`{output:[{text:"a"},{text:"b"}]}`, and the JSON serialization of the input
on `{}` (which is the two-character text of an empty object); a string
`response` field always wins regardless of the other fields, and the mixed
inputs witness the priority order response, then result container, then
output array, with verbatim serialization as the final fallback. -/
theorem extractText_c2 :
    (extractTextFromAiResult (JVal.obj (JObj.ofList [("response", JVal.str "hi")])) = "hi")
  ∧ (extractTextFromAiResult (JVal.obj (JObj.ofList
      [("result", JVal.obj (JObj.ofList [("output_text", JVal.str "x")]))])) = "x")
  ∧ (extractTextFromAiResult (JVal.obj (JObj.ofList
      [("output", JVal.arr (JArr.ofList
        [JVal.obj (JObj.ofList [("text", JVal.str "a")]),
         JVal.obj (JObj.ofList [("text", JVal.str "b")])]))])) = "ab")
  ∧ (extractTextFromAiResult (JVal.obj .nil) = jsonStringify (JVal.obj .nil))
  ∧ (jsonStringify (JVal.obj .nil) = "\x7b\x7d")
  ∧ (∀ (r : JVal) (s : String), jget r "response" = some (JVal.str s) →
       extractTextFromAiResult r = s)
  ∧ (extractTextFromAiResult (JVal.obj (JObj.ofList
      [("response", JVal.str "hi"),
       ("result", JVal.obj (JObj.ofList [("response", JVal.str "r")])),
       ("output", JVal.arr (JArr.ofList [JVal.str "a"]))])) = "hi")
  ∧ (extractTextFromAiResult (JVal.obj (JObj.ofList
      [("result", JVal.obj (JObj.ofList
         [("response", JVal.str "r"), ("output_text", JVal.str "o")])),
       ("output", JVal.arr (JArr.ofList [JVal.str "a"]))])) = "r")
  ∧ (extractTextFromAiResult (JVal.obj (JObj.ofList
      [("result", JVal.obj (JObj.ofList [("output_text", JVal.str "o")])),
       ("output", JVal.arr (JArr.ofList [JVal.str "a"]))])) = "o") := by
  refine ⟨rfl, rfl, rfl, rfl, rfl, ?_, rfl, rfl, rfl⟩
  intro r s h
  unfold extractTextFromAiResult
  rw [h]

/-- Witness for C2 at a concrete input: `{response:"hi"}` has a string
`response` field and extraction returns it. -/
theorem extractText_c2_witness :
    jget (JVal.obj (JObj.ofList [("response", JVal.str "hi")])) "response"
      = some (JVal.str "hi")
  ∧ extractTextFromAiResult (JVal.obj (JObj.ofList [("response", JVal.str "hi")])) = "hi" :=
  ⟨rfl, extractText_c2.2.2.2.2.2.1 (JVal.obj (JObj.ofList [("response", JVal.str "hi")])) "hi" rfl⟩

/-- C4: usage extraction returns `{3,5,8}` on
`{prompt_tokens:3, completion_tokens:5}`, `{0,0,0}` on `{}`, and prompt 10
on `{usage:{input_tokens:"10"}}` (string coercion); the four probed
locations — the result itself, its `usage` sub-object, the `result`
container, that container's `usage` sub-object — are tried in that order
and the first to yield a usage supplies the whole triple (no mixing), and
when every location fails the result is all-zero usage rather than an
error. -/
theorem extractUsage_c4 :
    (extractUsageFromAiResult (JVal.obj (JObj.ofList
      [("prompt_tokens", JVal.num 3), ("completion_tokens", JVal.num 5)])) = ⟨3, 5, 8⟩)
  ∧ (extractUsageFromAiResult (JVal.obj .nil) = ⟨0, 0, 0⟩)
  ∧ ((extractUsageFromAiResult (JVal.obj (JObj.ofList
      [("usage", JVal.obj (JObj.ofList [("input_tokens", JVal.str "10")]))]))).prompt_tokens = 10)
  ∧ (∀ (r : JVal) (u : Usage), getUsageFromObject r = some u → extractUsageFromAiResult r = u)
  ∧ (∀ (r : JVal) (u : Usage), getUsageFromObject r = none → usageProbe r = some u →
       extractUsageFromAiResult r = u)
  ∧ (∀ (r n : JVal) (u : Usage), getUsageFromObject r = none → usageProbe r = none →
       jget r "result" = some n → isObjLike n = true → getUsageFromObject n = some u →
       extractUsageFromAiResult r = u)
  ∧ (∀ (r n : JVal) (u : Usage), getUsageFromObject r = none → usageProbe r = none →
       jget r "result" = some n → isObjLike n = true → getUsageFromObject n = none →
       usageProbe n = some u → extractUsageFromAiResult r = u)
  ∧ (∀ r : JVal, getUsageFromObject r = none → usageProbe r = none →
       (∀ n, jget r "result" = some n → isObjLike n = true →
          getUsageFromObject n = none ∧ usageProbe n = none) →
       extractUsageFromAiResult r = ⟨0, 0, 0⟩) := by
  refine ⟨by decide, by decide, by decide, ?_, ?_, ?_, ?_, ?_⟩
  · intro r u h; rw [extractUsage_unfold, h]
  · intro r u h1 h2; rw [extractUsage_unfold, h1, h2]
  · intro r n u h1 h2 h3 h4 h5
    rw [extractUsage_unfold, h1, h2, h3]
    simp [h4, h5]
  · intro r n u h1 h2 h3 h4 h5 h6
    rw [extractUsage_unfold, h1, h2, h3]
    simp [h4, h5, h6]
  · intro r h1 h2 hn
    rw [extractUsage_unfold, h1, h2]
    cases h3 : jget r "result" with
    | none => rfl
    | some nested =>
      by_cases h4 : isObjLike nested
      · obtain ⟨h5, h6⟩ := hn nested h3 h4
        simp [h4, h5, h6]
      · simp [h4]

/-- Witness for C4 at a concrete input: the first location yields
`{3,5,8}` on `{prompt_tokens:3, completion_tokens:5}` and extraction
returns exactly it. -/
theorem extractUsage_c4_witness :
    getUsageFromObject (JVal.obj (JObj.ofList
      [("prompt_tokens", JVal.num 3), ("completion_tokens", JVal.num 5)])) = some ⟨3, 5, 8⟩
  ∧ extractUsageFromAiResult (JVal.obj (JObj.ofList
      [("prompt_tokens", JVal.num 3), ("completion_tokens", JVal.num 5)])) = ⟨3, 5, 8⟩ :=
  ⟨by decide,
   extractUsage_c4.2.2.2.1 (JVal.obj (JObj.ofList
     [("prompt_tokens", JVal.num 3), ("completion_tokens", JVal.num 5)])) ⟨3, 5, 8⟩ (by decide)⟩

/-- C7, counterexample: the claim that every field of the returned usage
triple is a non-negative integer fails on the concrete backend result
`{prompt_tokens:-3, completion_tokens:5}`, whose extracted prompt_tokens is
the negative value -3 — the code forwards reported quantities without any
sign check. -/
theorem usage_nonneg_cex_c7 :
    (extractUsageFromAiResult (JVal.obj (JObj.ofList
      [("prompt_tokens", JVal.num (-3)), ("completion_tokens", JVal.num 5)]))).prompt_tokens < 0 := by
  decide

theorem getUsage_nonneg (src : JVal) (u : Usage)
    (h : getUsageFromObject src = some u)
    (hp : ∀ n, promptTokensOf src = some n → 0 ≤ n)
    (hc : ∀ n, completionTokensOf src = some n → 0 ≤ n)
    (ht : ∀ n, totalDirectOf src = some n → 0 ≤ n) :
    0 ≤ u.prompt_tokens ∧ 0 ≤ u.completion_tokens ∧ 0 ≤ u.total_tokens := by
  simp only [getUsageFromObject] at h
  split at h
  · exact absurd h (by simp)
  · injection h with h
    subst h
    refine ⟨?_, ?_, ?_⟩
    · cases hp0 : promptTokensOf src with
      | none => simp [hp0]
      | some p => simp only [hp0, Option.getD_some]; exact hp p hp0
    · cases hc0 : completionTokensOf src with
      | none => simp [hc0]
      | some c => simp only [hc0, Option.getD_some]; exact hc c hc0
    · cases ht0 : totalDirectOf src with
      | some t =>
        simp only [ht0, Option.some_orElse, Option.getD_some]
        exact ht t ht0
      | none =>
        simp only [ht0, Option.none_orElse]
        cases hp0 : promptTokensOf src with
        | none =>
          cases hc0 : completionTokensOf src with
          | none => simp [hp0, hc0]
          | some c => simp [hp0, hc0]
        | some p =>
          cases hc0 : completionTokensOf src with
          | none => simp [hp0, hc0]
          | some c =>
            simp only [hp0, hc0, Option.getD_some]
            exact add_nonneg (hp p hp0) (hc c hc0)

/-- C7, amended: a location that reports prompt and completion tokens but no
direct total yields total_tokens = prompt_tokens + completion_tokens; and
every field of the extracted triple is non-negative provided every token
quantity reported (after numeric coercion) at each probed location is
non-negative — without that proviso negative reported values pass through,
as the counterexample shows.  The original claim's integrality assertion is
dropped, not proved: `toNumber` (src/index.ts:218-221) accepts any finite
double, so a backend reporting `prompt_tokens: 2.5` (or `"2.5"`, which
`Number` coerces to the same value) gets 2.5 forwarded into the triple; the
integer-restricted model cannot exhibit that value, and a theorem asserting
integrality here would be true by typing rather than by the program. -/
theorem usage_amended_c7 :
    (∀ (src : JVal) (p c : Int),
       totalDirectOf src = none → promptTokensOf src = some p → completionTokensOf src = some c →
       getUsageFromObject src = some ⟨p, c, p + c⟩)
  ∧ (∀ r : JVal,
       (∀ src ∈ usageSources r,
          (∀ n, promptTokensOf src = some n → 0 ≤ n) ∧
          (∀ n, completionTokensOf src = some n → 0 ≤ n) ∧
          (∀ n, totalDirectOf src = some n → 0 ≤ n)) →
       0 ≤ (extractUsageFromAiResult r).prompt_tokens ∧
       0 ≤ (extractUsageFromAiResult r).completion_tokens ∧
       0 ≤ (extractUsageFromAiResult r).total_tokens) := by
  constructor
  · intro src p c ht hp hc
    simp [getUsageFromObject, hp, hc, ht]
  · intro r hsrc
    rcases extractUsage_cases r with h | ⟨src, hmem, hu⟩
    · rw [h]
      exact ⟨le_refl 0, le_refl 0, le_refl 0⟩
    · obtain ⟨h1, h2, h3⟩ := hsrc src hmem
      exact getUsage_nonneg src _ hu h1 h2 h3

/-- Witness for the amended C7 at concrete inputs: `{input_tokens:3,
output_tokens:5}` reports both quantities and no total, so the location
yields total 8; and on `{}` all extracted fields are non-negative. -/
theorem usage_amended_c7_witness :
    (getUsageFromObject (JVal.obj (JObj.ofList
       [("input_tokens", JVal.num 3), ("output_tokens", JVal.num 5)])) = some ⟨3, 5, 8⟩)
  ∧ (0 ≤ (extractUsageFromAiResult (JVal.obj .nil)).prompt_tokens ∧
     0 ≤ (extractUsageFromAiResult (JVal.obj .nil)).completion_tokens ∧
     0 ≤ (extractUsageFromAiResult (JVal.obj .nil)).total_tokens) :=
  ⟨usage_amended_c7.1 (JVal.obj (JObj.ofList
     [("input_tokens", JVal.num 3), ("output_tokens", JVal.num 5)])) 3 5 rfl rfl rfl,
   usage_amended_c7.2 (JVal.obj .nil) (by
     intro src hmem
     simp only [usageSources, jget, jlookup, List.append_nil, List.mem_singleton] at hmem
     subst hmem
     refine ⟨?_, ?_, ?_⟩ <;> intro n h <;>
       simp [promptTokensOf, completionTokensOf, totalDirectOf, toNumber, jget, jlookup] at h)⟩

/-- C6: a request whose messages array is empty is answered with the
structured invalid-request error, whatever the other fields; and a request
containing a message whose content is not a string, or is blank after
trimming, or whose role property is missing, is answered with the
invalid-request error — in both cases the dispatch result is `badRequest`,
i.e. the handler returns before the backend capability is ever invoked
(`callBackend` is the only dispatch outcome that reaches `c.env.AI.run`). -/
theorem validation_c6 :
    (∀ body : ChatBody, messagesOf body = [] →
       chatCompletionsDispatch body = .badRequest "`messages` must be a non-empty array.")
  ∧ (∀ (body : ChatBody) (m : JVal), m ∈ messagesOf body →
       ((match jget m "content" with
         | some (.str s) => jsTrimChars s.data = []
         | _ => True)
        ∨ jget m "role" = none) →
       chatCompletionsDispatch body
         = .badRequest "Each message must include string `role` and non-empty string `content`.") := by
  constructor
  · intro body h
    unfold chatCompletionsDispatch
    simp [h]
  · intro body m hm hcond
    have hinv : isInvalidMessage m = true := by
      rcases hcond with hc | hr
      · unfold isInvalidMessage
        cases hjc : jget m "content" with
        | none => simp [hjc]
        | some v =>
          rw [hjc] at hc
          cases v <;> simp_all [hjc]
      · unfold isInvalidMessage
        simp [hr]
    have hne : messagesOf body ≠ [] := by
      intro h0
      rw [h0] at hm
      exact absurd hm (List.not_mem_nil m)
    have hlen : ¬ (messagesOf body).length = 0 := by
      simpa [List.length_eq_zero] using hne
    have hany : (messagesOf body).any isInvalidMessage = true :=
      List.any_eq_true.mpr ⟨m, hm, hinv⟩
    unfold chatCompletionsDispatch
    simp [hlen, hany]

/-- Witness for C6 at concrete requests: a body with no messages array gets
the empty-messages error, and a body whose single message has blank content
`"   "` gets the malformed-message error. -/
theorem validation_c6_witness :
    (messagesOf ⟨none, none, false⟩ = []
     ∧ chatCompletionsDispatch ⟨none, none, false⟩
         = .badRequest "`messages` must be a non-empty array.")
  ∧ chatCompletionsDispatch
      ⟨none, some (JVal.arr (JArr.ofList [JVal.obj (JObj.ofList
        [("role", JVal.str "user"), ("content", JVal.str "   ")])])), true⟩
      = .badRequest "Each message must include string `role` and non-empty string `content`." :=
  ⟨⟨rfl, validation_c6.1 ⟨none, none, false⟩ rfl⟩,
   validation_c6.2 _
     (JVal.obj (JObj.ofList [("role", JVal.str "user"), ("content", JVal.str "   ")]))
     (by exact List.Mem.head _)
     (Or.inl (show jsTrimChars "   ".data = [] from by decide))⟩

/-- C10: validation never checks role membership — for a request with a
non-empty messages array whose members all carry a non-blank string content,
the handler reaches the backend call exactly when every message's role
property is present and truthy (any truthy value passes, including strings
outside the documented role set, such as "robot" in the witness); only a
missing or falsy role triggers the invalid-request error. -/
theorem role_not_checked_c10 :
    ∀ body : ChatBody, messagesOf body ≠ [] →
    (∀ m ∈ messagesOf body, ∃ s, jget m "content" = some (JVal.str s) ∧ jsTrimChars s.data ≠ []) →
    ((chatCompletionsDispatch body
        = DispatchResult.callBackend (body.model.getD DEFAULT_MODEL) (messagesOf body) body.stream)
     ↔ (∀ m ∈ messagesOf body, ∃ r, jget m "role" = some r ∧ jtruthy r = true)) := by
  intro body hne hcontent
  have hlen : ¬ (messagesOf body).length = 0 := by
    simpa [List.length_eq_zero] using hne
  have hinv : ∀ m ∈ messagesOf body,
      (isInvalidMessage m = false ↔ ∃ r, jget m "role" = some r ∧ jtruthy r = true) := by
    intro m hm
    obtain ⟨s, hs, hsne⟩ := hcontent m hm
    unfold isInvalidMessage
    rw [hs]
    cases hr : jget m "role" with
    | none => simp [hsne]
    | some rv => simp [hsne]
  constructor
  · intro hcall m hm
    by_contra hno
    have hmt : isInvalidMessage m = true := by
      rcases Bool.eq_false_or_eq_true (isInvalidMessage m) with ht | hf
      · exact ht
      · exact absurd ((hinv m hm).mp hf) hno
    have hany : (messagesOf body).any isInvalidMessage = true :=
      List.any_eq_true.mpr ⟨m, hm, hmt⟩
    unfold chatCompletionsDispatch at hcall
    simp [hlen, hany] at hcall
  · intro hroles
    have hany : (messagesOf body).any isInvalidMessage = false := by
      rw [List.any_eq_false]
      intro m hm
      rw [Bool.not_eq_true]
      exact (hinv m hm).mpr (hroles m hm)
    unfold chatCompletionsDispatch
    simp [hlen, hany]

/-- Witness for C10 at a concrete request: a single message with role
"robot" — outside the documented role set but truthy — and content "hello"
passes validation and reaches the backend call. -/
theorem role_not_checked_c10_witness :
    chatCompletionsDispatch
      ⟨none, some (JVal.arr (JArr.ofList [JVal.obj (JObj.ofList
        [("role", JVal.str "robot"), ("content", JVal.str "hello")])])), false⟩
      = DispatchResult.callBackend DEFAULT_MODEL
          [JVal.obj (JObj.ofList [("role", JVal.str "robot"), ("content", JVal.str "hello")])]
          false := by
  exact (role_not_checked_c10
    ⟨none, some (JVal.arr (JArr.ofList [JVal.obj (JObj.ofList
      [("role", JVal.str "robot"), ("content", JVal.str "hello")])])), false⟩
    (by simp [messagesOf, jarrToList])
    (by
      intro m hm
      simp only [messagesOf, jarrToList, List.mem_singleton] at hm
      subst hm
      exact ⟨"hello", rfl, by decide⟩)).mpr
    (by
      intro m hm
      simp only [messagesOf, jarrToList, List.mem_singleton] at hm
      subst hm
      exact ⟨JVal.str "robot", rfl, by decide⟩)
